import Mathlib

set_option autoImplicit false

namespace TerminalSpec

/-! Shallow embedding of the terminal tool-dispatch server
    (claude-terminal-dxt / terminal-for-claude).

    JavaScript strings are modelled through their character lists
    (`String.data`), with executable helpers mirroring the string
    primitives the source uses (`includes`, `startsWith`, `split`,
    `trim`, `toLowerCase`).  JavaScript values that the source probes
    for truthiness are modelled by `JsVal`. -/

/-- Bool test: the character list `pat` occurs at the start of `s`
    (models `String.prototype.startsWith` after conversion to lists). -/
def listLeads : List Char → List Char → Bool
  | [], _ => true
  | _ :: _, [] => false
  | a :: as, b :: bs => a = b && listLeads as bs

/-- Bool test: `pat` occurs as a contiguous substring of `s`
    (models `String.prototype.includes`). -/
def containsSub : List Char → List Char → Bool
  | [], pat => pat.isEmpty
  | c :: rest, pat => listLeads pat (c :: rest) || containsSub rest pat

/-- Split a character list on a separator character, keeping empty pieces
    (models `String.prototype.split` with a single-character separator). -/
def splitOnChar (c : Char) : List Char → List (List Char)
  | [] => [[]]
  | x :: xs =>
    let r := splitOnChar c xs
    if x = c then [] :: r
    else
      match r with
      | [] => [[x]]
      | y :: ys => (x :: y) :: ys

/-- Strip leading and trailing whitespace (models `String.prototype.trim`). -/
def trimChars (l : List Char) : List Char :=
  ((l.dropWhile Char.isWhitespace).reverse.dropWhile Char.isWhitespace).reverse

/-- Lower-case a character list (models `String.prototype.toLowerCase`,
    identical on the ASCII data the configuration holds). -/
def lowerChars (l : List Char) : List Char :=
  l.map Char.toLower

/-- String-level wrapper of `containsSub`: `s.includes pat`. -/
def strIncludes (s pat : String) : Bool :=
  containsSub s.data pat.data

/-- String-level wrapper of `listLeads`: `s.startsWith pat`. -/
def strLeads (s pat : String) : Bool :=
  listLeads pat.data s.data

/-- Case-insensitive substring test, modelling
    `command.toLowerCase().includes(pattern.toLowerCase())` from
    `ConfigManager.isCommandAllowed`. -/
def jsIncludesCI (s pat : String) : Bool :=
  containsSub (lowerChars s.data) (lowerChars pat.data)

/-- A JavaScript value as probed by the source for truthiness:
    absent/undefined, a number, a string, or a boolean. -/
inductive JsVal where
  | undef
  | vnum (n : Int)
  | vstr (s : String)
  | vbool (b : Bool)
  deriving DecidableEq

/-- JavaScript truthiness: `undefined`, `0`, `""` and `false` are falsy. -/
def JsVal.truthy : JsVal → Bool
  | .undef => false
  | .vnum n => !(n = 0 : Bool)
  | .vstr s => !(s = "" : Bool)
  | .vbool b => b

/-- A field is present on an object when it is not `undefined`
    (formalizes the claim's phrase "if present on the error"). -/
def JsVal.present : JsVal → Bool
  | .undef => false
  | _ => true

/-- Conversion to a string, modelling the `.toString()` calls of
    `BaseTool.formatError` on the captured output fields. -/
def JsVal.jsToString : JsVal → String
  | .undef => "undefined"
  | .vnum n => toString n
  | .vstr s => s
  | .vbool b => if b then "true" else "false"

/-- Error codes of the protocol layer used by the source
    (`ErrorCode` from the MCP SDK, restricted to the codes the source
    raises). -/
inductive ErrCode where
  | invalidParams
  | internalError
  deriving DecidableEq

/-- A protocol-level validation error (`McpError` in the source). -/
structure McpError where
  code : ErrCode
  message : String
  deriving DecidableEq

/-- A runtime JavaScript error as caught by `BaseTool.execute`: a message
    plus whatever incidental fields the error object carries
    (`stdout`, `stderr`, `code`, `signal`, `killed`). -/
structure JsError where
  message : String
  stdout : JsVal
  stderr : JsVal
  code : JsVal
  signal : JsVal
  killed : JsVal
  deriving DecidableEq

/-- The failure envelope built by `BaseTool.formatError`: the optional
    fields are included exactly when the corresponding error field is
    truthy. -/
structure FailureEnvelope where
  success : Bool
  execution_time_ms : Nat
  error : String
  stdout : Option String
  stderr : Option String
  exit_code : Option JsVal
  signal : Option JsVal
  timeout : Option Bool
  deriving DecidableEq

/-- Embedding of `BaseTool.formatError` (base-tool.js lines 57-75):
    each spread `...(error.f && \x7b f: ... \x7d)` contributes its field only
    when `error.f` is truthy; `killed` is reported as `timeout: true`. -/
def formatError (e : JsError) (t : Nat) : FailureEnvelope :=
  { success := false
    execution_time_ms := t
    error := e.message
    stdout := if e.stdout.truthy then some e.stdout.jsToString else none
    stderr := if e.stderr.truthy then some e.stderr.jsToString else none
    exit_code := if e.code.truthy then some e.code else none
    signal := if e.signal.truthy then some e.signal else none
    timeout := if e.killed.truthy then some true else none }

/-- The success envelope built by `BaseTool.formatSuccess`: the handler's
    result object spread after `success` and `execution_time_ms`. -/
structure SuccessEnvelope (α : Type) where
  success : Bool
  execution_time_ms : Nat
  payload : α
  deriving DecidableEq

/-- A tool response returned to the transport: a success or a failure
    envelope. -/
inductive ToolResponse (α : Type) where
  | succ (s : SuccessEnvelope α)
  | fail (f : FailureEnvelope)
  deriving DecidableEq

/-- Embedding of `BaseTool.formatSuccess`. -/
def formatSuccess {α : Type} (result : α) (t : Nat) : ToolResponse α :=
  .succ { success := true, execution_time_ms := t, payload := result }

/-- The three ways a handler invocation can end: normal return, a thrown
    `McpError`, or any other thrown error. -/
inductive HandlerOutcome (α : Type) where
  | ok (result : α)
  | throwMcp (e : McpError)
  | throwJs (e : JsError)
  deriving DecidableEq

/-- What `BaseTool.execute` does with an invocation: either it returns an
    envelope, or it re-raises a validation error. -/
inductive ExecuteOutput (α : Type) where
  | returned (r : ToolResponse α)
  | raised (e : McpError)
  deriving DecidableEq

/-- Embedding of `BaseTool.execute` (base-tool.js lines 19-36): wrap a
    normal return via `formatSuccess`; re-raise a caught `McpError`
    unchanged; capture any other caught error via `formatError`.
    `t` is the elapsed-milliseconds measurement. -/
def baseToolExecute {α : Type} (h : HandlerOutcome α) (t : Nat) : ExecuteOutput α :=
  match h with
  | .ok r => .returned (formatSuccess r t)
  | .throwMcp e => .raised e
  | .throwJs e => .returned (.fail (formatError e t))

/-! Path validation (file-utils.js, `validateAndNormalizePath`).
    Node's `path.resolve` / `path.normalize` are embedded for POSIX
    paths: the path is made absolute against a current working
    directory and `.` / `..` / empty segments are folded away. -/

/-- The two-character parent-directory marker the guard searches for. -/
def dotdot : List Char := ['.', '.']

/-- Fold away empty, `.` and `..` segments of an absolute path, the way
    Node's `path.resolve` does: `..` pops the previous segment and is
    dropped at the root.  `acc` holds the kept segments in reverse. -/
def normSegs : List (List Char) → List (List Char) → List (List Char)
  | acc, [] => acc.reverse
  | acc, seg :: rest =>
    if seg = [] ∨ seg = ['.'] then normSegs acc rest
    else if seg = dotdot then normSegs acc.tail rest
    else normSegs (seg :: acc) rest

/-- Embedding of `normalize(resolve(filePath))` for POSIX paths: a
    relative path is joined onto the process working directory `cwd`
    (assumed absolute), then segments are folded. -/
def resolvePath (cwd p : String) : String :=
  let full : String := if strLeads p "/" then p else cwd ++ "/" ++ p
  String.mk ('/' :: List.intercalate ['/'] (normSegs [] (splitOnChar '/' full.data)))

/-- Embedding of `validateAndNormalizePath` (file-utils.js lines 155-170):
    reject the empty path, then reject when the normalized path contains
    the substring `..` and does not start with the home directory;
    otherwise return the normalized path. -/
def validateAndNormalizePath (cwd home p : String) : Except String String :=
  if p = "" then .error "Path must be a non-empty string"
  else if containsSub (resolvePath cwd p).data dotdot && !(strLeads (resolvePath cwd p) home) then
    .error "Path traversal detected - access denied"
  else
    .ok (resolvePath cwd p)

/-- Formalizes the claim's phrase "contains a parent-directory segment"
    for an input path: some slash-separated component is exactly `..`.
    This definition follows the claim's words (not the source) and is
    used only to state the claim for refutation. -/
def hasParentDirSegment (p : String) : Bool :=
  (splitOnChar '/' p.data).any (fun seg => seg = dotdot)

/-! Execution option builder (command-utils.js, `getExecOptions`). -/

/-- Static limit `MAX_BUFFER_SIZE` (10 MiB). -/
def MAX_BUFFER_SIZE : Nat := 1024 * 1024 * 10

/-- Static limit `DEFAULT_TIMEOUT` (30 s). -/
def DEFAULT_TIMEOUT : Int := 30000

/-- Static limit `MAX_TIMEOUT` (300 s). -/
def MAX_TIMEOUT : Int := 300000

/-- JavaScript `v || d` on an optional number: the default is used when
    the value is absent or falsy (zero). -/
def jsOr (v : Option Int) (d : Int) : Int :=
  match v with
  | some t => if t = 0 then d else t
  | none => d

/-- JavaScript `v || d` on an optional string: the default is used when
    the value is absent or falsy (empty). -/
def jsOrStr (v : Option String) (d : String) : String :=
  match v with
  | some s => if s = "" then d else s
  | none => d

/-- The options record produced by `getExecOptions` and handed to the
    spawn primitive. -/
structure ExecOptions where
  timeout : Int
  maxBuffer : Nat
  env : List (String × String)
  cwd : Option String
  deriving DecidableEq

/-- Spread-merge of an environment overlay over the inherited process
    environment (`\x7b ...process.env, ...options.environment \x7d`): keys of the
    base keep their position but take the overlay's value on collision,
    and new overlay keys are appended. -/
def overlayEnv (base ov : List (String × String)) : List (String × String) :=
  base.map (fun kv => (kv.1, (((ov.find? (fun o => o.1 == kv.1)).map Prod.snd).getD kv.2)))
    ++ ov.filter (fun o => (base.find? (fun kv => kv.1 == o.1)).isNone)

/-- Embedding of `getExecOptions` (command-utils.js lines 11-18): the
    timeout is `min(options.timeout || DEFAULT_TIMEOUT, MAX_TIMEOUT)`,
    the buffer cap is fixed, the environment is the inherited one
    optionally overlaid, and `cwd` is included only when
    `working_directory` is truthy. -/
def getExecOptions (processEnv : List (String × String)) (timeout : Option Int)
    (working_directory : Option String) (environment : Option (List (String × String))) : ExecOptions :=
  { timeout := min (jsOr timeout DEFAULT_TIMEOUT) MAX_TIMEOUT
    maxBuffer := MAX_BUFFER_SIZE
    env := match environment with
      | some ov => overlayEnv processEnv ov
      | none => processEnv
    cwd := match working_directory with
      | some wd => if wd = "" then none else some wd
      | none => none }

/-! Script execution handler (execute-script.js, `ExecuteScriptTool.run`)
    with the static interpreter tables from constants.js. -/

/-- Association-table lookup used for the static interpreter tables. -/
def tableLookup {α : Type} (tbl : List (String × α)) (k : String) : Option α :=
  (tbl.find? (fun e => e.1 == k)).map Prod.snd

/-- The interpreter-to-extension table `SCRIPT_EXTENSIONS`. -/
def SCRIPT_EXTENSIONS : List (String × String) :=
  [("bash", ".sh"), ("sh", ".sh"), ("powershell", ".ps1"), ("cmd", ".bat"),
   ("python", ".py"), ("python3", ".py"), ("node", ".js"), ("perl", ".pl"), ("ruby", ".rb")]

/-- A path wrapped in double quotes, as the command templates produce. -/
def quoteArg (p : String) : String :=
  "\"" ++ p ++ "\""

/-- The interpreter-to-command-template table `SCRIPT_COMMANDS`. -/
def SCRIPT_COMMANDS : List (String × (String → String)) :=
  [("bash", fun p => "bash " ++ quoteArg p),
   ("sh", fun p => "sh " ++ quoteArg p),
   ("powershell", fun p => "powershell -ExecutionPolicy Bypass -File " ++ quoteArg p),
   ("cmd", fun p => "cmd /c " ++ quoteArg p),
   ("python", fun p => "python " ++ quoteArg p),
   ("python3", fun p => "python3 " ++ quoteArg p),
   ("node", fun p => "node " ++ quoteArg p),
   ("perl", fun p => "perl " ++ quoteArg p),
   ("ruby", fun p => "ruby " ++ quoteArg p)]

/-- The per-kind script timeout default `TIMEOUTS.SCRIPT`. -/
def TIMEOUTS_SCRIPT : Int := 60000

/-- Embedding of `ExecuteScriptTool.buildScriptCommand` (execute-script.js
    lines 88-96): look the interpreter up in the command table, raising
    `InvalidParams` when it is absent. -/
def buildScriptCommand (interpreter scriptPath : String) : Except McpError String :=
  match tableLookup SCRIPT_COMMANDS interpreter with
  | none => .error { code := .invalidParams, message := "Unsupported interpreter: " ++ interpreter }
  | some builder => .ok (builder scriptPath)

/-- Observable side effects of one script invocation, in program order. -/
inductive SEvent where
  | mkTempDir (d : String)
  | writeTempFile (p : String)
  | execCmd (c : String) (opts : ExecOptions)
  | unlinkDone (p : String)
  | unlinkFailed (p : String)
  | logLine (m : String)
  deriving DecidableEq

/-- External collaborators of one script invocation: the fresh
    temporary-directory name, the spawn primitive's verdict per command,
    and whether the cleanup `unlinkSync` succeeds per path. -/
structure ScriptOracle where
  tempDir : String
  exec : String → ExecOptions → Except JsError (String × String)
  unlinkOk : String → Bool

/-- The payload returned by a successful script invocation. -/
structure ScriptPayload where
  interpreter : String
  working_directory : String
  stdout : String
  stderr : String
  exit_code : Int
  deriving DecidableEq

/-- The temporary script file path of one invocation: `script` plus the
    interpreter's extension (fallback `.txt`), inside the fresh
    temporary directory. -/
def tempScriptPath (o : ScriptOracle) (interpreter : String) : String :=
  o.tempDir ++ "/script" ++ ((tableLookup SCRIPT_EXTENSIONS interpreter).getD ".txt")

/-- The `finally` block of `ExecuteScriptTool.run`: attempt to unlink the
    temporary file; a cleanup failure is logged, never raised. -/
def scriptCleanup (o : ScriptOracle) (interpreter : String) : List SEvent :=
  if o.unlinkOk (tempScriptPath o interpreter) then [.unlinkDone (tempScriptPath o interpreter)]
  else [.unlinkFailed (tempScriptPath o interpreter), .logLine "Failed to cleanup temp file"]

/-- Embedding of `ExecuteScriptTool.run` (execute-script.js lines 42-86):
    validate the content, create the temporary directory, write the
    script file (with fallback extension `.txt` for an interpreter absent
    from the extension table), build the command — which can raise
    `InvalidParams` —, run it, and in the `finally` block attempt to
    unlink the temporary file, logging (never raising) a cleanup
    failure.  The trace lists every side effect in order; the outcome is
    the handler's return or raise. -/
def executeScriptRun (script_content interpreter : String) (working_directory : Option String)
    (timeout : Option Int) (processEnv : List (String × String)) (processCwd : String)
    (o : ScriptOracle) : List SEvent × HandlerOutcome ScriptPayload :=
  if script_content = "" then
    ([], .throwMcp { code := .invalidParams, message := "Script content must be a non-empty string" })
  else
    match buildScriptCommand interpreter (tempScriptPath o interpreter) with
    | .error e =>
      ([.mkTempDir o.tempDir, .writeTempFile (tempScriptPath o interpreter)]
         ++ scriptCleanup o interpreter, .throwMcp e)
    | .ok command =>
      match o.exec command (getExecOptions processEnv (some (timeout.getD TIMEOUTS_SCRIPT)) working_directory none) with
      | .error e =>
        ([.mkTempDir o.tempDir, .writeTempFile (tempScriptPath o interpreter),
          .execCmd command (getExecOptions processEnv (some (timeout.getD TIMEOUTS_SCRIPT)) working_directory none)]
           ++ scriptCleanup o interpreter, .throwJs e)
      | .ok (out, err) =>
        ([.mkTempDir o.tempDir, .writeTempFile (tempScriptPath o interpreter),
          .execCmd command (getExecOptions processEnv (some (timeout.getD TIMEOUTS_SCRIPT)) working_directory none)]
           ++ scriptCleanup o interpreter,
         .ok { interpreter := interpreter
               working_directory := jsOrStr working_directory processCwd
               stdout := out
               stderr := err
               exit_code := 0 })

/-- Replay a trace over a set of existing files: writes add a path,
    successful unlinks remove it. -/
def filesAfter : List SEvent → List String → List String
  | [], fs => fs
  | e :: rest, fs =>
    match e with
    | .writeTempFile p => filesAfter rest (p :: fs)
    | .unlinkDone p => filesAfter rest (fs.filter (fun q => !(q == p)))
    | _ => filesAfter rest fs

/-- A concrete oracle used by the counterexample and witnesses: the spawn
    primitive succeeds with empty output and cleanup succeeds. -/
def oracle0 : ScriptOracle :=
  { tempDir := "/tmp/claude-terminal-abc123"
    exec := fun _ _ => .ok ("", "")
    unlinkOk := fun _ => true }

/-! Command permission check (config-manager.js,
    `ConfigManager.isCommandAllowed`). -/

/-- The configuration fields consulted by the permission check. -/
structure SecurityConfig where
  securityMode : String
  commandWhitelist : List String
  commandBlacklist : List String
  deriving DecidableEq

/-- Embedding of `ConfigManager.isCommandAllowed` (config-manager.js
    lines 77-99): in `strict` mode an empty whitelist permits nothing and
    otherwise the command must case-insensitively contain some whitelist
    entry; in any other mode a non-empty blacklist rejects a command
    containing some blacklist entry, and an empty blacklist permits
    everything. -/
def isCommandAllowed (c : SecurityConfig) (command : String) : Bool :=
  if c.securityMode = "strict" then
    if c.commandWhitelist.isEmpty then false
    else c.commandWhitelist.any (fun pat => jsIncludesCI command pat)
  else if !c.commandBlacklist.isEmpty then
    !(c.commandBlacklist.any (fun pat => jsIncludesCI command pat))
  else
    true

/-! Directory create (file-utils.js, `createDirectory`).  The filesystem
    collaborator is a finite map from paths to an is-directory flag; the
    `statSync`/`existsSync` probes become lookups and `mkdirSync` adds
    the path as a directory. -/

/-- The filesystem as seen through `existsSync`/`statSync`: existing
    paths with their is-directory flag. -/
abbrev FSState := List (String × Bool)

/-- Combined `existsSync` / `statSync().isDirectory()` probe. -/
def fsLookup (fs : FSState) (p : String) : Option Bool :=
  (fs.find? (fun e => e.1 == p)).map Prod.snd

/-- The external `mkdirSync` primitive: the path now exists as a
    directory. -/
def mkdirSync (fs : FSState) (p : String) : FSState :=
  (p, true) :: fs

/-- The result record of the create sub-operation (the fresh-stat
    metadata of the created directory is external and omitted). -/
structure CreateDirResult where
  directory_path : String
  created : Bool
  existed : Bool
  deriving DecidableEq

/-- Embedding of `createDirectory` (file-utils.js lines 405-433): the
    path is validated and normalized first; an existing directory is
    reported as `created = false, existed = true`; an existing
    non-directory is an error; otherwise `mkdirSync` runs and the result
    reports `created = true, existed = false`. -/
def createDirectory (cwd home : String) (fs : FSState) (dirPath : String) :
    Except String (FSState × CreateDirResult) :=
  match validateAndNormalizePath cwd home dirPath with
  | .error e => .error e
  | .ok np =>
    match fsLookup fs np with
    | some true => .ok (fs, { directory_path := np, created := false, existed := true })
    | some false => .error ("Path exists but is not a directory: " ++ np)
    | none => .ok (mkdirSync fs np, { directory_path := np, created := true, existed := false })

/-! Process listing (process-manager.js, `ListProcessesTool`).  The
    platform flag, the enumeration command's captured stdout, and the
    regex engine (`new RegExp(filter, "i").test`) are external
    collaborators. -/

/-- A uniform process record parsed from the enumeration output. -/
structure ProcRecord where
  name : String
  pid : Int
  user : Option String
  cpu : Option String
  memory : Option String
  deriving DecidableEq

/-- Digit run to number, as `parseInt` accumulates decimal digits. -/
def digitsToNat (ds : List Char) : Nat :=
  ds.foldl (fun acc c => acc * 10 + (c.toNat - 48)) 0

/-- JavaScript `parseInt(s) || 0`: skip whitespace, read an optional
    sign and the leading digit run; no digits (`NaN`) falls back to 0. -/
def jsParseIntOr0 (s : String) : Int :=
  let l := s.data.dropWhile Char.isWhitespace
  let signed : Bool × List Char :=
    match l with
    | '-' :: rest => (true, rest)
    | '+' :: rest => (false, rest)
    | rest => (false, rest)
  let ds := signed.2.takeWhile Char.isDigit
  if ds.isEmpty then 0
  else if signed.1 then -(digitsToNat ds : Int) else (digitsToNat ds : Int)

/-- Split a character list at every separator satisfying `p`, keeping
    empty pieces (a single-character-class regex split). -/
def splitWhen (p : Char → Bool) : List Char → List (List Char)
  | [] => [[]]
  | x :: xs =>
    let r := splitWhen p xs
    if p x then [] :: r
    else
      match r with
      | [] => [[x]]
      | y :: ys => (x :: y) :: ys

/-- The comma-separated fields of one Windows `tasklist /FO CSV` line
    with all double quotes removed
    (`line.split(",").map(part => part.replace(/"/g, ""))`). -/
def winParts (line : String) : List String :=
  (splitOnChar ',' line.data).map (fun seg => String.mk (seg.filter (fun c => !(c == '"'))))

/-- The whitespace-separated columns of one Unix `ps aux` line
    (`line.trim().split(/\s+/)`): trim, split at whitespace, collapse
    runs. -/
def unixParts (line : String) : List String :=
  ((splitWhen Char.isWhitespace (trimChars line.data)).filter (fun seg => !seg.isEmpty)).map String.mk

/-- Parse one Windows line: skipped unless it has at least two fields;
    `memory` is field 4 with fallback `N/A`. -/
def parseLineWin (line : String) : Option ProcRecord :=
  if 2 ≤ (winParts line).length then
    some { name := (winParts line).getD 0 ""
           pid := jsParseIntOr0 ((winParts line).getD 1 "")
           user := none
           cpu := none
           memory := some (jsOrStr (some ((winParts line).getD 4 "")) "N/A") }
  else none

/-- Parse one Unix line: skipped unless it has at least eleven columns;
    the name is the join of columns 10 onward. -/
def parseLineUnix (line : String) : Option ProcRecord :=
  if 11 ≤ (unixParts line).length then
    some { name := String.intercalate " " ((unixParts line).drop 10)
           pid := jsParseIntOr0 ((unixParts line).getD 1 "")
           user := some ((unixParts line).getD 0 "")
           cpu := some ((unixParts line).getD 2 "")
           memory := some ((unixParts line).getD 3 "") }
  else none

/-- Embedding of `ListProcessesTool.parseProcessList` (process-manager.js
    lines 55-88): trim the captured output, split into lines, skip the
    header line, and keep only the lines the per-platform parser
    accepts. -/
def parseProcessList (stdout : String) (isWin : Bool) : List ProcRecord :=
  (((splitOnChar '\n' (trimChars stdout.data)).map String.mk).drop 1).filterMap
    (if isWin then parseLineWin else parseLineUnix)

/-- JavaScript `l.slice(0, e)`: a negative end counts from the end of the
    list. -/
def jsSlice0 {α : Type} (l : List α) (e : Int) : List α :=
  if 0 ≤ e then l.take e.toNat else l.take (l.length - e.natAbs)

/-- `PROCESS_LIMITS.DEFAULT_LIMIT`. -/
def PROCESS_DEFAULT_LIMIT : Int := 50

/-- `PROCESS_LIMITS.MAX_LIMIT`. -/
def PROCESS_MAX_LIMIT : Int := 500

/-- The payload returned by the listing handler. -/
structure ProcessListResult where
  process_count : Nat
  processes : List ProcRecord
  deriving DecidableEq

/-- Embedding of `ListProcessesTool.run` (process-manager.js lines
    30-53): parse the enumeration output, apply a truthy filter through
    the case-insensitive regex engine `regexTest` against the name
    field, and truncate to `min(limit, 500)` with `limit` defaulting
    to 50. -/
def listProcessesRun (isWin : Bool) (stdout : String) (filter : Option String)
    (limit : Option Int) (regexTest : String → String → Bool) : ProcessListResult :=
  let procs0 := parseProcessList stdout isWin
  let procs1 :=
    match filter with
    | some f => if f = "" then procs0 else procs0.filter (fun proc => regexTest f proc.name)
    | none => procs0
  let procs2 := jsSlice0 procs1 (min (limit.getD PROCESS_DEFAULT_LIMIT) PROCESS_MAX_LIMIT)
  { process_count := procs2.length, processes := procs2 }

/-! Tool registry (tool-registry.js, `ToolRegistry`).  The registry
    holds the tools in a JavaScript `Map` keyed by tool name: `set` on
    an existing key updates the value in place, keeping the key's
    original insertion position; a new key is appended. -/

/-- A registered tool's descriptor as exposed by `getDefinition()` (the
    input schema carried alongside is opaque to the registry). -/
structure ToolDescriptor where
  name : String
  description : String
  deriving DecidableEq

/-- A JavaScript property value sitting in a tool's `execute` slot:
    absent, an actual function value, or any other value.  The
    registration guard `!tool.execute` tests only truthiness of this
    slot. -/
inductive JsProp where
  | undef
  | func (hid : Nat)
  | other (v : JsVal)
  deriving DecidableEq

/-- JavaScript truthiness of the property. -/
def JsProp.truthy : JsProp → Bool
  | .undef => false
  | .func _ => true
  | .other v => v.truthy

/-- Whether the property is an actual function value.  This formalizes
    the claim's phrase "handler is not callable" and is used only to
    state the claim; the source never performs this test. -/
def JsProp.callable : JsProp → Bool
  | .func _ => true
  | _ => false

/-- A tool object as the registry sees it: its `name`, its `execute`
    property, and the description reported through `getDefinition()`. -/
structure RegTool where
  name : String
  execute : JsProp
  description : String
  deriving DecidableEq

/-- The descriptor `list()` derives from a registered tool via
    `tool.getDefinition()` (base-tool.js lines 11-17). -/
def RegTool.getDefinition (t : RegTool) : ToolDescriptor :=
  { name := t.name, description := t.description }

/-- The registry state: the underlying `Map`'s entries in insertion
    order. -/
abbrev Registry := List (String × RegTool)

/-- The registered names in insertion order (`getToolNames()`). -/
def regNames (r : Registry) : List String :=
  r.map Prod.fst

/-- JavaScript `Map.prototype.set`: an existing key keeps its position
    and takes the new value; a new key is appended. -/
def mapSet (r : Registry) (k : String) (t : RegTool) : Registry :=
  if r.any (fun e => e.1 == k) then r.map (fun e => if e.1 == k then (k, t) else e)
  else r ++ [(k, t)]

/-- Embedding of `ToolRegistry.register` (tool-registry.js lines 32-39):
    throw unless `tool.name` and `tool.execute` are both truthy (an
    empty name or an absent/falsy `execute` property; callability is not
    checked), then `this.tools.set(tool.name, tool)`. -/
def register (r : Registry) (tool : RegTool) : Except String Registry :=
  if tool.name = "" ∨ tool.execute.truthy = false then
    .error "Tool must have a name and execute method"
  else
    .ok (mapSet r tool.name tool)

/-- Embedding of `ToolRegistry.get`: `Map.get`, so the registered tool
    or the `undefined` sentinel. -/
def regGet (r : Registry) (name : String) : Option RegTool :=
  (r.find? (fun e => e.1 == name)).map Prod.snd

/-- Embedding of `ToolRegistry.list`:
    `Array.from(this.tools.values()).map(tool => tool.getDefinition())`. -/
def regList (r : Registry) : List ToolDescriptor :=
  r.map (fun e => e.2.getDefinition)

/-- The nine default tools `registerDefaultTools()` registers, with the
    names and descriptions from the tool constructors; every one has a
    truthy name and a real `execute` method. -/
def defaultTools : List RegTool :=
  [{ name := "execute_command", execute := .func 1, description := "Execute a shell command in the terminal with proper security and timeout handling" },
   { name := "execute_script", execute := .func 2, description := "Execute a script with specified interpreter" },
   { name := "get_system_info", execute := .func 3, description := "Get comprehensive system information" },
   { name := "list_processes", execute := .func 4, description := "List running processes with filtering options" },
   { name := "kill_process", execute := .func 5, description := "Terminate a process by PID with safety checks" },
   { name := "file_read", execute := .func 6, description := "Read file contents with metadata - safer and more informative than shell commands" },
   { name := "file_write", execute := .func 7, description := "Write content to a file with metadata - safer than shell redirection" },
   { name := "file_operations", execute := .func 8, description := "Perform file operations (copy, move, delete) - safer than shell commands" },
   { name := "directory_operations", execute := .func 9, description := "Perform directory operations (create, list, delete, exists) - better than shell commands" }]

/-- Register a list of tools in order; a registration throw propagates,
    as it would out of `registerDefaultTools()`. -/
def registerAll (r : Registry) : List RegTool → Except String Registry
  | [] => .ok r
  | t :: rest =>
    match register r t with
    | .error e => .error e
    | .ok r' => registerAll r' rest

/-- Embedding of `ToolRegistry.reset` (tool-registry.js lines 94-96):
    `clear()` then `registerDefaultTools()`, ignoring the current
    state. -/
def regReset (_r : Registry) : Except String Registry :=
  registerAll [] defaultTools

end TerminalSpec

namespace TerminalSpec

/-- C1 counterexample: an error whose `code` field is present (exit code 0)
    and whose `stdout` field is present (empty string) produces a failure
    envelope with no `exit_code` and no `stdout` field, so "if present on
    the error" does not hold as stated. -/
theorem c1_present_field_counterexample :
    JsVal.present (JsError.code { message := "Command failed", stdout := .vstr "", stderr := .undef, code := .vnum 0, signal := .undef, killed := .vbool false }) = true
    ∧ (formatError { message := "Command failed", stdout := .vstr "", stderr := .undef, code := .vnum 0, signal := .undef, killed := .vbool false } 5).exit_code = none
    ∧ JsVal.present (JsError.stdout { message := "Command failed", stdout := .vstr "", stderr := .undef, code := .vnum 0, signal := .undef, killed := .vbool false }) = true
    ∧ (formatError { message := "Command failed", stdout := .vstr "", stderr := .undef, code := .vnum 0, signal := .undef, killed := .vbool false } 5).stdout = none := by
  exact ⟨rfl, rfl, rfl, rfl⟩

/-- C1 (amended): `BaseTool.execute` is two-tier.  On normal return it
    returns a success envelope with `success = true` and the elapsed
    milliseconds wrapped around the handler's result; on a raised
    validation-class error it re-raises that error unchanged; on any other
    raised error it returns (does not raise) a failure envelope with
    `success = false`, the error's message, the elapsed milliseconds and,
    when truthy on the error (not merely present), the `stdout`, `stderr`,
    `exit_code` and `signal` fields and the `timeout` flag. -/
theorem c1_dispatch_two_tier {α : Type} (t : Nat) (r : α) (em : McpError) (e : JsError) :
    baseToolExecute (.ok r) t = .returned (.succ { success := true, execution_time_ms := t, payload := r })
    ∧ baseToolExecute (α := α) (.throwMcp em) t = .raised em
    ∧ ∃ f : FailureEnvelope,
        baseToolExecute (α := α) (.throwJs e) t = .returned (.fail f)
        ∧ f.success = false
        ∧ f.error = e.message
        ∧ f.execution_time_ms = t
        ∧ (e.stdout.truthy = true → f.stdout = some e.stdout.jsToString)
        ∧ (e.stdout.truthy = false → f.stdout = none)
        ∧ (e.stderr.truthy = true → f.stderr = some e.stderr.jsToString)
        ∧ (e.stderr.truthy = false → f.stderr = none)
        ∧ (e.code.truthy = true → f.exit_code = some e.code)
        ∧ (e.code.truthy = false → f.exit_code = none)
        ∧ (e.signal.truthy = true → f.signal = some e.signal)
        ∧ (e.signal.truthy = false → f.signal = none)
        ∧ (e.killed.truthy = true → f.timeout = some true)
        ∧ (e.killed.truthy = false → f.timeout = none) := by
  refine ⟨rfl, rfl, formatError e t, rfl, rfl, rfl, rfl, ?_, ?_, ?_, ?_, ?_, ?_, ?_, ?_, ?_, ?_⟩
  all_goals intro h
  all_goals simp [formatError, h]

/-- C1 witness: the amended dispatch theorem applied to a concrete timed-out
    command error. -/
theorem c1_witness :
    ∃ f : FailureEnvelope,
      baseToolExecute (α := Unit) (.throwJs { message := "timed out", stdout := .vstr "partial", stderr := .undef, code := .undef, signal := .vstr "SIGTERM", killed := .vbool true }) 42
        = .returned (.fail f)
      ∧ f.success = false ∧ f.error = "timed out" ∧ f.execution_time_ms = 42
      ∧ f.stdout = some "partial" ∧ f.exit_code = none ∧ f.timeout = some true := by
  obtain ⟨-, -, f, hf, hs, he, ht, i5, -, -, -, -, i10, -, -, i13, -⟩ :=
    c1_dispatch_two_tier (α := Unit) 42 () { code := .invalidParams, message := "" }
      { message := "timed out", stdout := .vstr "partial", stderr := .undef, code := .undef, signal := .vstr "SIGTERM", killed := .vbool true }
  exact ⟨f, hf, hs, he, ht, i5 rfl, i10 rfl, i13 rfl⟩

/-- C10: in the failure envelope, `exit_code` is included exactly when the
    error's `code` field is truthy (so exit code 0 is omitted), and the
    `timeout` flag is set exactly when the error's `killed` field is truthy
    (so any kill is reported as a timeout). -/
theorem c10_truthiness_of_failure_fields (e : JsError) (t : Nat) :
    ((formatError e t).exit_code = none ↔ e.code.truthy = false)
    ∧ (e.code.truthy = true → (formatError e t).exit_code = some e.code)
    ∧ ((formatError e t).timeout = some true ↔ e.killed.truthy = true)
    ∧ ((formatError e t).timeout = none ↔ e.killed.truthy = false) := by
  refine ⟨?_, ?_, ?_, ?_⟩
  all_goals cases h : e.code.truthy
  all_goals cases h' : e.killed.truthy
  all_goals simp [formatError, h, h']

/-- C10 witness: an error carrying exit code 0 but `killed = true` yields an
    envelope without `exit_code` and with `timeout = true`. -/
theorem c10_witness :
    (formatError { message := "killed", stdout := .undef, stderr := .undef, code := .vnum 0, signal := .undef, killed := .vbool true } 9).exit_code = none
    ∧ (formatError { message := "killed", stdout := .undef, stderr := .undef, code := .vnum 0, signal := .undef, killed := .vbool true } 9).timeout = some true := by
  obtain ⟨h1, -, h3, -⟩ :=
    c10_truthiness_of_failure_fields { message := "killed", stdout := .undef, stderr := .undef, code := .vnum 0, signal := .undef, killed := .vbool true } 9
  exact ⟨h1.mpr rfl, h3.mpr rfl⟩

/-- C2 counterexample: `/etc/../etc/passwd` contains a parent-directory
    segment and does not resolve under the home directory `/home/user`,
    yet the guard accepts it (the `..` is resolved away before the
    substring test); conversely `/tmp/report..old` contains no
    parent-directory segment yet the guard rejects it. -/
theorem c2_counterexample :
    hasParentDirSegment "/etc/../etc/passwd" = true
    ∧ strLeads (resolvePath "/" "/etc/../etc/passwd") "/home/user" = false
    ∧ validateAndNormalizePath "/" "/home/user" "/etc/../etc/passwd" = .ok "/etc/passwd"
    ∧ hasParentDirSegment "/tmp/report..old" = false
    ∧ strLeads (resolvePath "/" "/tmp/report..old") "/home/user" = false
    ∧ validateAndNormalizePath "/" "/home/user" "/tmp/report..old" = .error "Path traversal detected - access denied" := by
  exact ⟨rfl, rfl, rfl, rfl, rfl, rfl⟩

/-- C2 (amended): every non-empty path argument is resolved to a
    normalized absolute form, and the guard rejects it exactly when that
    normalized form still contains the substring `..` and does not start
    with the home-directory prefix; every accepted path is returned in
    its normalized form.  Parent-directory segments of the input that
    resolve away thus pass the guard. -/
theorem c2_guard_normalized_substring (cwd home p : String) (hp : p ≠ "") :
    ((∃ msg, validateAndNormalizePath cwd home p = .error msg)
      ↔ (containsSub (resolvePath cwd p).data dotdot = true ∧ strLeads (resolvePath cwd p) home = false))
    ∧ (∀ np, validateAndNormalizePath cwd home p = .ok np → np = resolvePath cwd p) := by
  unfold validateAndNormalizePath
  rw [if_neg hp]
  by_cases hc : (containsSub (resolvePath cwd p).data dotdot && !(strLeads (resolvePath cwd p) home)) = true
  · rw [if_pos hc]
    rw [Bool.and_eq_true, Bool.not_eq_true'] at hc
    refine ⟨⟨fun _ => ⟨hc.1, hc.2⟩, fun _ => ⟨_, rfl⟩⟩, fun np h => ?_⟩
    exact Except.noConfusion h
  · rw [if_neg hc]
    rw [Bool.and_eq_true, Bool.not_eq_true'] at hc
    refine ⟨⟨fun hex => ?_, fun hab => absurd hab hc⟩, fun np h => ?_⟩
    · obtain ⟨msg, hmsg⟩ := hex
      exact Except.noConfusion hmsg
    · injection h with h
      exact h.symm

/-- C2 witness: the amended guard characterization applied to a rejected
    path outside home containing `..` in a component name, and to an
    accepted relative path under home. -/
theorem c2_witness :
    (∃ msg, validateAndNormalizePath "/" "/home/user" "/tmp/report..old" = .error msg)
    ∧ (∀ np, validateAndNormalizePath "/home/user" "/home/user" "docs/notes.txt" = .ok np → np = "/home/user/docs/notes.txt") := by
  constructor
  · exact (c2_guard_normalized_substring "/" "/home/user" "/tmp/report..old" (by decide)).1.mpr ⟨rfl, rfl⟩
  · intro np h
    exact (c2_guard_normalized_substring "/home/user" "/home/user" "docs/notes.txt" (by decide)).2 np h

/-- C4 counterexample: a requested timeout of 500 ms passes through the
    builder unclamped, so the produced timeout is not within
    [1000, 300000]. -/
theorem c4_counterexample :
    (getExecOptions [] (some 500) none none).timeout = 500
    ∧ ¬(1000 ≤ (getExecOptions [] (some 500) none none).timeout) := by
  exact ⟨rfl, by decide⟩

/-- C4 (amended): the builder produces
    `timeout = min(requested || 30000, 300000)` — the 30000 ms default
    applies when the request is absent or zero, and per-kind defaults are
    substituted by the callers before the builder runs.  The result never
    exceeds 300000 ms, but there is no lower clamp: the produced timeout
    lies in [1000, 300000] only when the requested value is absent, zero,
    or itself at least 1000 ms (the schema's declared minimum, which the
    builder does not enforce). -/
theorem c4_timeout_clamp (pe : List (String × String)) (t : Option Int)
    (wd : Option String) (env : Option (List (String × String))) :
    (getExecOptions pe t wd env).timeout = min (jsOr t DEFAULT_TIMEOUT) MAX_TIMEOUT
    ∧ (getExecOptions pe t wd env).timeout ≤ 300000
    ∧ (t = none → (getExecOptions pe t wd env).timeout = 30000)
    ∧ (t = some 0 → (getExecOptions pe t wd env).timeout = 30000)
    ∧ (∀ v, t = some v → 1000 ≤ v →
        1000 ≤ (getExecOptions pe t wd env).timeout ∧ (getExecOptions pe t wd env).timeout ≤ 300000) := by
  refine ⟨rfl, min_le_right _ _, ?_, ?_, ?_⟩
  · rintro rfl
    rfl
  · rintro rfl
    rfl
  · rintro v rfl hv
    have ht : (getExecOptions pe (some v) wd env).timeout = min (jsOr (some v) DEFAULT_TIMEOUT) MAX_TIMEOUT := rfl
    rw [ht]
    constructor
    · refine le_min ?_ (by decide)
      simp only [jsOr]
      rw [if_neg (by omega : ¬v = 0)]
      exact hv
    · exact min_le_right _ _

/-- C4 witness: the amended clamp theorem applied to a request of
    600000 ms (clamped to the maximum) and to an absent request. -/
theorem c4_witness :
    (getExecOptions [] (some 600000) none none).timeout = min (jsOr (some 600000) DEFAULT_TIMEOUT) MAX_TIMEOUT
    ∧ (getExecOptions [] none none none).timeout = 30000
    ∧ 1000 ≤ (getExecOptions [] (some 5000) none none).timeout := by
  refine ⟨(c4_timeout_clamp [] (some 600000) none none).1, ?_, ?_⟩
  · exact (c4_timeout_clamp [] none none none).2.2.1 rfl
  · exact ((c4_timeout_clamp [] (some 5000) none none).2.2.2.2 5000 rfl (by decide)).1

/-- C3 counterexample: invoking the script handler with the unsupported
    interpreter `php` does fail with `InvalidParams`, but the temporary
    script file (fallback extension `.txt`) is written to disk before the
    failure, so the "no temporary script file is created" part of the
    claim is false. -/
theorem c3_counterexample :
    SEvent.writeTempFile "/tmp/claude-terminal-abc123/script.txt"
        ∈ (executeScriptRun "echo hi" "php" none none [] "/" oracle0).1
    ∧ (executeScriptRun "echo hi" "php" none none [] "/" oracle0).2
        = .throwMcp { code := .invalidParams, message := "Unsupported interpreter: php" } := by
  exact ⟨by decide, rfl⟩

/-- C3 (amended): for every invocation whose interpreter is not a key of
    the command table, the handler fails with `InvalidParams` and never
    executes a command — but only after the temporary script file has
    been written; the cleanup in the `finally` block then attempts to
    remove that file before the error propagates. -/
theorem c3_unsupported_interpreter (content interpreter : String) (wd : Option String)
    (tmo : Option Int) (pe : List (String × String)) (pc : String) (o : ScriptOracle)
    (hc : content ≠ "") (hi : tableLookup SCRIPT_COMMANDS interpreter = none) :
    (executeScriptRun content interpreter wd tmo pe pc o).2
        = .throwMcp { code := .invalidParams, message := "Unsupported interpreter: " ++ interpreter }
    ∧ SEvent.writeTempFile (tempScriptPath o interpreter)
        ∈ (executeScriptRun content interpreter wd tmo pe pc o).1
    ∧ (∀ c opts, SEvent.execCmd c opts ∉ (executeScriptRun content interpreter wd tmo pe pc o).1)
    ∧ (o.unlinkOk (tempScriptPath o interpreter) = true →
        SEvent.unlinkDone (tempScriptPath o interpreter)
          ∈ (executeScriptRun content interpreter wd tmo pe pc o).1) := by
  refine ⟨?_, ?_, ?_, ?_⟩
  · simp [executeScriptRun, buildScriptCommand, hc, hi]
  · simp [executeScriptRun, buildScriptCommand, hc, hi]
  · intro c opts
    by_cases hu : o.unlinkOk (tempScriptPath o interpreter) = true
    all_goals simp [executeScriptRun, buildScriptCommand, scriptCleanup, hc, hi, hu]
  · intro hu
    simp [executeScriptRun, buildScriptCommand, scriptCleanup, hc, hi, hu]

/-- C3 witness: the amended theorem applied to the concrete unsupported
    interpreter `php`. -/
theorem c3_witness :
    (executeScriptRun "echo hi" "php" none none [] "/" oracle0).2
      = .throwMcp { code := .invalidParams, message := "Unsupported interpreter: php" }
    ∧ SEvent.unlinkDone "/tmp/claude-terminal-abc123/script.txt"
        ∈ (executeScriptRun "echo hi" "php" none none [] "/" oracle0).1 := by
  obtain ⟨h1, -, -, h4⟩ := c3_unsupported_interpreter "echo hi" "php" none none [] "/" oracle0 (by decide) rfl
  exact ⟨h1, h4 rfl⟩

/-- Helper: the invocation's outcome depends only on the temporary
    directory and the spawn primitive, never on whether the cleanup
    unlink succeeds. -/
theorem executeScriptRun_outcome_ignores_unlink (content interpreter : String)
    (wd : Option String) (tmo : Option Int) (pe : List (String × String)) (pc : String)
    (o₁ o₂ : ScriptOracle) (hd : o₁.tempDir = o₂.tempDir) (he : o₁.exec = o₂.exec) :
    (executeScriptRun content interpreter wd tmo pe pc o₁).2
      = (executeScriptRun content interpreter wd tmo pe pc o₂).2 := by
  obtain ⟨d₁, e₁, u₁⟩ := o₁
  obtain ⟨d₂, e₂, u₂⟩ := o₂
  simp only at hd he
  subst hd
  subst he
  unfold executeScriptRun
  by_cases hc : content = ""
  · rw [if_pos hc, if_pos hc]
  · rw [if_neg hc, if_neg hc]
    simp only [tempScriptPath]
    rcases hb : buildScriptCommand interpreter (d₁ ++ "/script" ++ ((tableLookup SCRIPT_EXTENSIONS interpreter).getD ".txt")) with e | cmd
    · simp [hb]
    · simp only [hb]
      rcases hx : e₁ cmd (getExecOptions pe (some (tmo.getD TIMEOUTS_SCRIPT)) wd none) with err | ⟨out, errs⟩
      · simp [hx]
      · simp [hx]

/-- C5: for every supported interpreter and every invocation, the
    temporary script file is written and the `finally` cleanup runs on
    every exit path: when the unlink succeeds the file no longer exists
    after the trace; when the unlink fails the failure is logged; and the
    invocation's outcome is unchanged by whether the cleanup fails. -/
theorem c5_temp_cleanup (content interpreter : String) (wd : Option String)
    (tmo : Option Int) (pe : List (String × String)) (pc : String) (o : ScriptOracle)
    (hc : content ≠ "") (builder : String → String)
    (hi : tableLookup SCRIPT_COMMANDS interpreter = some builder) :
    SEvent.writeTempFile (tempScriptPath o interpreter)
        ∈ (executeScriptRun content interpreter wd tmo pe pc o).1
    ∧ (o.unlinkOk (tempScriptPath o interpreter) = true →
        ¬ (tempScriptPath o interpreter)
            ∈ filesAfter (executeScriptRun content interpreter wd tmo pe pc o).1 []
        ∧ SEvent.unlinkDone (tempScriptPath o interpreter)
            ∈ (executeScriptRun content interpreter wd tmo pe pc o).1)
    ∧ (o.unlinkOk (tempScriptPath o interpreter) = false →
        SEvent.unlinkFailed (tempScriptPath o interpreter)
            ∈ (executeScriptRun content interpreter wd tmo pe pc o).1
        ∧ SEvent.logLine "Failed to cleanup temp file"
            ∈ (executeScriptRun content interpreter wd tmo pe pc o).1)
    ∧ (∀ u' : String → Bool,
        (executeScriptRun content interpreter wd tmo pe pc { o with unlinkOk := u' }).2
          = (executeScriptRun content interpreter wd tmo pe pc o).2) := by
  refine ⟨?_, ?_, ?_, fun u' => executeScriptRun_outcome_ignores_unlink content interpreter wd tmo pe pc _ o rfl rfl⟩
  · rcases hexec : o.exec (builder (tempScriptPath o interpreter))
        (getExecOptions pe (some (tmo.getD TIMEOUTS_SCRIPT)) wd none) with e | ⟨out, err⟩
    all_goals simp [executeScriptRun, buildScriptCommand, hc, hi, hexec]
  · intro h
    rcases hexec : o.exec (builder (tempScriptPath o interpreter))
        (getExecOptions pe (some (tmo.getD TIMEOUTS_SCRIPT)) wd none) with e | ⟨out, err⟩
    all_goals simp [executeScriptRun, buildScriptCommand, scriptCleanup, filesAfter, hc, hi, hexec, h]
  · intro h
    rcases hexec : o.exec (builder (tempScriptPath o interpreter))
        (getExecOptions pe (some (tmo.getD TIMEOUTS_SCRIPT)) wd none) with e | ⟨out, err⟩
    all_goals simp [executeScriptRun, buildScriptCommand, scriptCleanup, filesAfter, hc, hi, hexec, h]

/-- C5 witness: the cleanup theorem applied to a concrete `python`
    invocation with a succeeding oracle. -/
theorem c5_witness :
    SEvent.writeTempFile "/tmp/claude-terminal-abc123/script.py"
        ∈ (executeScriptRun "print(1)" "python" none none [] "/" oracle0).1
    ∧ ¬ "/tmp/claude-terminal-abc123/script.py"
        ∈ filesAfter (executeScriptRun "print(1)" "python" none none [] "/" oracle0).1 [] := by
  obtain ⟨h1, h2, -, -⟩ := c5_temp_cleanup "print(1)" "python" none none [] "/" oracle0
    (by decide) (fun p => "python " ++ quoteArg p) rfl
  exact ⟨h1, (h2 rfl).1⟩

/-- C7: in strict security mode a command is permitted iff it
    case-insensitively contains at least one whitelist entry (an empty
    whitelist permits nothing); in any non-strict (standard) mode a
    command is rejected iff it case-insensitively contains at least one
    blacklist entry, so every command is permitted when the blacklist is
    empty. -/
theorem c7_security_modes (c : SecurityConfig) (command : String) :
    (c.securityMode = "strict" →
      (isCommandAllowed c command = true ↔ ∃ pat ∈ c.commandWhitelist, jsIncludesCI command pat = true))
    ∧ (c.securityMode = "strict" → c.commandWhitelist = [] → isCommandAllowed c command = false)
    ∧ (c.securityMode ≠ "strict" →
      (isCommandAllowed c command = false ↔ ∃ pat ∈ c.commandBlacklist, jsIncludesCI command pat = true)) := by
  obtain ⟨mode, wl, bl⟩ := c
  refine ⟨fun hm => ?_, fun hm hw => ?_, fun hm => ?_⟩
  · simp only at hm
    subst hm
    unfold isCommandAllowed
    cases wl with
    | nil => simp
    | cons a l => simp [List.any_eq_true]
  · simp only at hm hw
    subst hm
    subst hw
    unfold isCommandAllowed
    simp
  · simp only at hm
    unfold isCommandAllowed
    rw [if_neg hm]
    cases bl with
    | nil => simp
    | cons a l =>
      simp only [List.isEmpty_cons, Bool.not_false, if_true, Bool.not_eq_false', List.any_eq_true]

/-- C7 witness: the mode characterization applied to concrete strict and
    standard configurations. -/
theorem c7_witness :
    isCommandAllowed { securityMode := "strict", commandWhitelist := ["git"], commandBlacklist := [] } "Git status" = true
    ∧ isCommandAllowed { securityMode := "strict", commandWhitelist := [], commandBlacklist := [] } "ls" = false
    ∧ isCommandAllowed { securityMode := "standard", commandWhitelist := [], commandBlacklist := ["rm -rf"] } "sudo RM -RF /" = false
    ∧ isCommandAllowed { securityMode := "standard", commandWhitelist := [], commandBlacklist := [] } "anything" = true := by
  refine ⟨?_, ?_, ?_, ?_⟩
  · exact ((c7_security_modes _ "Git status").1 rfl).mpr ⟨"git", by simp, by decide⟩
  · exact (c7_security_modes _ "ls").2.1 rfl rfl
  · exact ((c7_security_modes _ "sudo RM -RF /").2.2 (by decide)).mpr ⟨"rm -rf", by simp, by decide⟩
  · have h := (c7_security_modes { securityMode := "standard", commandWhitelist := [], commandBlacklist := [] } "anything").2.2 (by decide)
    cases hb : isCommandAllowed { securityMode := "standard", commandWhitelist := [], commandBlacklist := [] } "anything" with
    | false => exact absurd (h.mp hb) (by simp)
    | true => rfl

/-- C8: directory create is idempotent.  For every guard-passing path: if
    the normalized path already exists as a directory, create succeeds
    with `created = false, existed = true`; if it exists as a
    non-directory, create fails; and whenever a create call succeeds, a
    second create on the same path succeeds on the unchanged filesystem
    and reports `existed = true`. -/
theorem c8_create_idempotent (cwd home : String) (fs : FSState) (p np : String)
    (hv : validateAndNormalizePath cwd home p = .ok np) :
    (fsLookup fs np = some true →
      createDirectory cwd home fs p = .ok (fs, { directory_path := np, created := false, existed := true }))
    ∧ (fsLookup fs np = some false → ∃ msg, createDirectory cwd home fs p = .error msg)
    ∧ (∀ fs' res, createDirectory cwd home fs p = .ok (fs', res) →
        createDirectory cwd home fs' p = .ok (fs', { directory_path := np, created := false, existed := true })) := by
  refine ⟨fun hd => ?_, fun hf => ?_, fun fs' res h => ?_⟩
  · simp only [createDirectory, hv, hd]
  · simp only [createDirectory, hv, hf]
    exact ⟨_, rfl⟩
  · simp only [createDirectory, hv] at h ⊢
    rcases hd : fsLookup fs np with _ | b
    · simp only [hd] at h
      injection h with h2
      rw [Prod.mk.injEq] at h2
      obtain ⟨hfs, -⟩ := h2
      subst hfs
      have hlook : fsLookup (mkdirSync fs np) np = some true := by
        simp [fsLookup, mkdirSync]
      simp only [hlook]
    · cases b
      · simp only [hd] at h
        exact Except.noConfusion h
      · simp only [hd] at h
        injection h with h2
        rw [Prod.mk.injEq] at h2
        obtain ⟨hfs, -⟩ := h2
        subst hfs
        simp only [hd]

/-- C8 witness: the idempotence theorem applied to a concrete filesystem
    in which `/srv/data` exists as a directory, and to one in which it
    exists as a regular file. -/
theorem c8_witness :
    createDirectory "/" "/home/user" [("/srv/data", true)] "/srv/data"
      = .ok ([("/srv/data", true)], { directory_path := "/srv/data", created := false, existed := true })
    ∧ (∃ msg, createDirectory "/" "/home/user" [("/srv/data", false)] "/srv/data" = .error msg)
    ∧ (∀ fs' res, createDirectory "/" "/home/user" [] "/srv/data" = .ok (fs', res) →
        createDirectory "/" "/home/user" fs' "/srv/data"
          = .ok (fs', { directory_path := "/srv/data", created := false, existed := true })) := by
  obtain ⟨h1, -, -⟩ := c8_create_idempotent "/" "/home/user" [("/srv/data", true)] "/srv/data" "/srv/data" rfl
  obtain ⟨-, h2, -⟩ := c8_create_idempotent "/" "/home/user" [("/srv/data", false)] "/srv/data" "/srv/data" rfl
  obtain ⟨-, -, h3⟩ := c8_create_idempotent "/" "/home/user" ([] : FSState) "/srv/data" "/srv/data" rfl
  exact ⟨h1 rfl, h2 rfl, h3⟩

/-- Helper: the empty pattern occurs in every string, so an applied empty
    filter keeps every record (matching the behavior of the empty regular
    expression). -/
theorem containsSub_nil (l : List Char) : containsSub l [] = true := by
  cases l <;> simp [containsSub, listLeads, List.isEmpty]

/-- Helper: the produced slice bound is non-negative whenever the
    requested limit is absent or positive. -/
theorem limit_bound_nonneg (limit : Option Int) (hlim : ∀ v, limit = some v → 1 ≤ v) :
    0 ≤ min (limit.getD PROCESS_DEFAULT_LIMIT) PROCESS_MAX_LIMIT := by
  rcases limit with _ | v
  · decide
  · have := hlim v rfl
    simp only [Option.getD_some]
    refine le_min (by omega) (by decide)

/-- C9: the listing handler applies a given filter through the
    case-insensitive regex engine against each record's name field (an
    empty filter string keeps everything, as the empty regex matches all
    names), truncates to `min(limit, 500)` entries with `limit`
    defaulting to 50, returns a `process_count` equal to the length of
    the returned list of at most 500 entries, and skips malformed or
    short enumeration lines instead of failing. -/
theorem c9_list_processes (isWin : Bool) (stdout : String) (filter : Option String)
    (limit : Option Int) (regexTest : String → String → Bool)
    (hlim : ∀ v, limit = some v → 1 ≤ v)
    (hempty : ∀ s, regexTest "" s = true) :
    (∀ f, filter = some f →
      (listProcessesRun isWin stdout filter limit regexTest).processes
        = ((parseProcessList stdout isWin).filter (fun proc => regexTest f proc.name)).take
            (min (limit.getD PROCESS_DEFAULT_LIMIT) PROCESS_MAX_LIMIT).toNat)
    ∧ (filter = none →
      (listProcessesRun isWin stdout filter limit regexTest).processes
        = (parseProcessList stdout isWin).take
            (min (limit.getD PROCESS_DEFAULT_LIMIT) PROCESS_MAX_LIMIT).toNat)
    ∧ (listProcessesRun isWin stdout filter limit regexTest).process_count
        = (listProcessesRun isWin stdout filter limit regexTest).processes.length
    ∧ (listProcessesRun isWin stdout filter limit regexTest).processes.length ≤ 500
    ∧ (∀ line, (winParts line).length < 2 → parseLineWin line = none)
    ∧ (∀ line, (unixParts line).length < 11 → parseLineUnix line = none) := by
  have hnn := limit_bound_nonneg limit hlim
  have hslice : ∀ l : List ProcRecord,
      jsSlice0 l (min (limit.getD PROCESS_DEFAULT_LIMIT) PROCESS_MAX_LIMIT)
        = l.take (min (limit.getD PROCESS_DEFAULT_LIMIT) PROCESS_MAX_LIMIT).toNat := by
    intro l
    unfold jsSlice0
    rw [if_pos hnn]
  have hcap : (min (limit.getD PROCESS_DEFAULT_LIMIT) PROCESS_MAX_LIMIT).toNat ≤ 500 := by
    have : min (limit.getD PROCESS_DEFAULT_LIMIT) PROCESS_MAX_LIMIT ≤ 500 :=
      min_le_right _ _
    omega
  refine ⟨fun f hf => ?_, fun hf => ?_, ?_, ?_, fun line hl => ?_, fun line hl => ?_⟩
  · subst hf
    by_cases he : f = ""
    · subst he
      have hfil : (parseProcessList stdout isWin).filter (fun proc => regexTest "" proc.name)
          = parseProcessList stdout isWin :=
        List.filter_eq_self.mpr (fun a _ => hempty a.name)
      simp only [listProcessesRun, hslice, hfil, ite_self]
    · simp only [listProcessesRun, hslice]
      rw [if_neg he]
  · subst hf
    simp only [listProcessesRun, hslice]
  · rfl
  · simp only [listProcessesRun, hslice]
    exact le_trans (le_trans (le_of_eq (List.length_take _ _)) (min_le_left _ _)) hcap
  · unfold parseLineWin
    rw [if_neg (by omega)]
  · unfold parseLineUnix
    rw [if_neg (by omega)]

/-- C9 witness: the listing theorem applied to a concrete two-process
    `ps aux` capture with filter `node`, using a substring regex engine. -/
theorem c9_witness :
    (listProcessesRun false
        "USER PID %CPU %MEM VSZ RSS TTY STAT START TIME COMMAND\nroot 1 0.0 0.1 16000 800 ? Ss 10:00 0:01 /sbin/init\nalice 42 1.0 2.0 200 100 ? S 10:01 0:02 node server.js"
        (some "node") none (fun pat s => jsIncludesCI s pat)).processes
      = [{ name := "node server.js", pid := 42, user := some "alice", cpu := some "1.0", memory := some "2.0" }]
    ∧ (listProcessesRun false
        "USER PID %CPU %MEM VSZ RSS TTY STAT START TIME COMMAND\nroot 1 0.0 0.1 16000 800 ? Ss 10:00 0:01 /sbin/init\nalice 42 1.0 2.0 200 100 ? S 10:01 0:02 node server.js"
        (some "node") none (fun pat s => jsIncludesCI s pat)).process_count = 1 := by
  obtain ⟨h1, -, h3, -, -, -⟩ := c9_list_processes false
    "USER PID %CPU %MEM VSZ RSS TTY STAT START TIME COMMAND\nroot 1 0.0 0.1 16000 800 ? Ss 10:00 0:01 /sbin/init\nalice 42 1.0 2.0 200 100 ? S 10:01 0:02 node server.js"
    (some "node") none (fun pat s => jsIncludesCI s pat)
    (fun v hv => Option.noConfusion hv)
    (fun s => containsSub_nil (lowerChars s.data))
  refine ⟨?_, ?_⟩
  · rw [h1 "node" rfl]
    rfl
  · rw [h3, h1 "node" rfl]
    rfl

/-- Helper: an entry key matches under `any` exactly when the name is
    registered. -/
theorem regAny_name_iff (r : Registry) (nm : String) :
    r.any (fun e => e.1 == nm) = true ↔ nm ∈ regNames r := by
  rw [List.any_eq_true]
  constructor
  · rintro ⟨e, he, hpe⟩
    exact List.mem_map.mpr ⟨e, he, eq_of_beq hpe⟩
  · intro hm
    obtain ⟨e, he, hname⟩ := List.mem_map.mp hm
    exact ⟨e, he, beq_iff_eq.mpr hname⟩

/-- Helper: updating a key in place leaves the key sequence unchanged. -/
theorem regNames_overwriteMap (r : Registry) (k : String) (t : RegTool) :
    regNames (r.map (fun e => if e.1 == k then (k, t) else e)) = regNames r := by
  induction r with
  | nil => rfl
  | cons a rest ih =>
    simp only [regNames, List.map_cons] at ih ⊢
    by_cases hc : (a.1 == k) = true
    · rw [if_pos hc, List.cons.injEq]
      exact ⟨(eq_of_beq hc).symm, ih⟩
    · rw [if_neg hc, List.cons.injEq]
      exact ⟨rfl, ih⟩

/-- Helper: after an in-place update of a registered key, lookup of that
    key yields the new tool. -/
theorem regGet_map_overwrite (r : Registry) (k : String) (t : RegTool)
    (hany : r.any (fun e => e.1 == k) = true) :
    regGet (r.map (fun e => if e.1 == k then (k, t) else e)) k = some t := by
  induction r with
  | nil => simp at hany
  | cons a rest ih =>
    by_cases hc : (a.1 == k) = true
    · simp only [List.map_cons, if_pos hc, regGet]
      simp [List.find?]
    · have hany' : rest.any (fun e => e.1 == k) = true := by
        simp only [List.any_cons, hc, Bool.false_or] at hany
        exact hany
      simp only [List.map_cons, if_neg hc, regGet]
      simp only [List.find?, Bool.eq_false_iff.mpr hc, cond_false]
      exact ih hany'

/-- Helper: appending a fresh entry makes its tool reachable. -/
theorem regGet_append_single (r : Registry) (k : String) (t : RegTool)
    (hnone : ∀ e ∈ r, ¬((e.1 == k) = true)) :
    regGet (r ++ [(k, t)]) k = some t := by
  unfold regGet
  rw [List.find?_append, List.find?_eq_none.mpr hnone]
  simp [List.find?]

/-- Helper: lookup of an unregistered name returns the sentinel. -/
theorem regGet_not_registered (r : Registry) (nm : String) (hmem : nm ∉ regNames r) :
    regGet r nm = none := by
  have hfind : r.find? (fun e => e.1 == nm) = none := by
    rw [List.find?_eq_none]
    intro e he hpe
    exact hmem (List.mem_map.mpr ⟨e, he, eq_of_beq hpe⟩)
  rw [regGet, hfind]
  rfl

/-- Helper: `Map.set` always makes the key reachable. -/
theorem regGet_mapSet (r : Registry) (k : String) (t : RegTool) :
    regGet (mapSet r k t) k = some t := by
  unfold mapSet
  by_cases hany : r.any (fun e => e.1 == k) = true
  · rw [if_pos hany]
    exact regGet_map_overwrite r k t hany
  · rw [if_neg hany]
    exact regGet_append_single r k t (List.any_eq_false.mp (Bool.eq_false_iff.mpr hany))

/-- Helper: `Map.set` always leaves the key registered. -/
theorem mem_regNames_mapSet (r : Registry) (k : String) (t : RegTool) :
    k ∈ regNames (mapSet r k t) := by
  unfold mapSet
  by_cases hany : r.any (fun e => e.1 == k) = true
  · rw [if_pos hany, regNames_overwriteMap]
    exact (regAny_name_iff r k).mp hany
  · rw [if_neg hany]
    have hsplit : regNames (r ++ [(k, t)]) = regNames r ++ [k] := by
      simp [regNames]
    rw [hsplit]
    exact List.mem_append_right _ (List.mem_singleton_self k)

/-- Helper: `Map.set` on an already-registered key leaves the key
    sequence unchanged. -/
theorem regNames_mapSet_of_mem (r : Registry) (k : String) (t : RegTool)
    (hmem : k ∈ regNames r) : regNames (mapSet r k t) = regNames r := by
  unfold mapSet
  rw [if_pos ((regAny_name_iff r k).mpr hmem), regNames_overwriteMap]

/-- Helper: `Map.set` preserves distinctness of the keys. -/
theorem mapSet_nodup (r : Registry) (k : String) (t : RegTool)
    (hnd : (regNames r).Nodup) : (regNames (mapSet r k t)).Nodup := by
  unfold mapSet
  by_cases hany : r.any (fun e => e.1 == k) = true
  · rw [if_pos hany, regNames_overwriteMap]
    exact hnd
  · rw [if_neg hany]
    have hnew : k ∉ regNames r := fun hm => hany ((regAny_name_iff r k).mpr hm)
    have hsplit : regNames (r ++ [(k, t)]) = regNames r ++ [k] := by
      simp [regNames]
    rw [hsplit, List.nodup_append]
    refine ⟨hnd, List.nodup_singleton _, fun x hx hmem => ?_⟩
    rw [List.mem_singleton] at hmem
    subst hmem
    exact hnew hx

/-- Helper: a successful registration preserves distinctness of the
    registered names. -/
theorem register_ok_nodup (r : Registry) (tool : RegTool) (r' : Registry)
    (hnd : (regNames r).Nodup) (hok : register r tool = .ok r') : (regNames r').Nodup := by
  unfold register at hok
  split at hok
  · exact Except.noConfusion hok
  · injection hok with hok
    subst hok
    exact mapSet_nodup r tool.name tool hnd

/-- Helper: registering a list of tools in order preserves distinctness
    of the registered names. -/
theorem registerAll_nodup (ts : List RegTool) : ∀ (r r' : Registry),
    (regNames r).Nodup → registerAll r ts = .ok r' → (regNames r').Nodup := by
  induction ts with
  | nil =>
    intro r r' hnd hok
    injection hok with hok
    subst hok
    exact hnd
  | cons t rest ih =>
    intro r r' hnd hok
    unfold registerAll at hok
    rcases hreg : register r t with e | racc
    · rw [hreg] at hok
      exact Except.noConfusion hok
    · rw [hreg] at hok
      exact ih racc r' (register_ok_nodup r t racc hnd hreg) hok

/-- C6 counterexample: a tool whose `execute` property is a truthy
    non-function value (here the number 42) has a non-callable handler,
    yet `register` accepts it — the source guard `!tool.name ||
    !tool.execute` tests truthiness of the property, never
    callability. -/
theorem c6_counterexample :
    JsProp.callable (RegTool.execute { name := "bogus_tool", execute := .other (.vnum 42), description := "d" }) = false
    ∧ register [] { name := "bogus_tool", execute := .other (.vnum 42), description := "d" }
        = .ok [("bogus_tool", { name := "bogus_tool", execute := .other (.vnum 42), description := "d" })] := by
  exact ⟨rfl, rfl⟩

/-- C6 (amended): `register` fails exactly when the tool's name or its
    `execute` property is falsy — an empty name or an absent/falsy
    `execute` is rejected with the one combined error message, while
    callability is never checked; registering a second tool under an
    already-registered name silently overwrites the earlier registration
    in place (last registration wins, no new entry); `get` returns the
    registered tool of a name and the not-found sentinel for
    unregistered names; `list` appends a fresh descriptor in
    registration order; distinctness of names (one descriptor per
    registered name) is preserved by registration, holds after `reset`
    — which re-registers the nine default tools — and repeated `reset`
    is stable. -/
theorem c6_registry_contract (r : Registry) (tool t' : RegTool) (nm : String) :
    (tool.name = "" → ∃ msg, register r tool = .error msg)
    ∧ (tool.execute.truthy = false → ∃ msg, register r tool = .error msg)
    ∧ ((∃ msg, register r tool = .error msg) ↔ (tool.name = "" ∨ tool.execute.truthy = false))
    ∧ (∀ r', register r tool = .ok r' → regGet r' tool.name = some tool)
    ∧ (∀ r' r'', register r tool = .ok r' → t'.name = tool.name →
        register r' t' = .ok r'' →
        regGet r'' tool.name = some t' ∧ regNames r'' = regNames r')
    ∧ (nm ∉ regNames r → regGet r nm = none)
    ∧ (tool.name ∉ regNames r → ∀ r', register r tool = .ok r' →
        regList r' = regList r ++ [tool.getDefinition])
    ∧ ((regNames r).Nodup → ∀ r', register r tool = .ok r' → (regNames r').Nodup)
    ∧ (∀ rr, regReset r = .ok rr → (regNames rr).Nodup ∧ regReset rr = regReset r) := by
  refine ⟨fun hname => ?_, fun hexec => ?_, ⟨fun hmsg => ?_, fun hcond => ?_⟩,
    fun r' hok => ?_, fun r' r'' hok1 hdn hok2 => ?_, regGet_not_registered r nm,
    fun hnew r' hok => ?_, fun hnd r' hok => register_ok_nodup r tool r' hnd hok,
    fun rr hok => ?_⟩
  · unfold register
    rw [if_pos (Or.inl hname)]
    exact ⟨_, rfl⟩
  · unfold register
    rw [if_pos (Or.inr hexec)]
    exact ⟨_, rfl⟩
  · by_contra hcond
    obtain ⟨msg, hmsg⟩ := hmsg
    unfold register at hmsg
    rw [if_neg hcond] at hmsg
    exact Except.noConfusion hmsg
  · unfold register
    rw [if_pos hcond]
    exact ⟨_, rfl⟩
  · unfold register at hok
    split at hok
    · exact Except.noConfusion hok
    · injection hok with hok
      subst hok
      exact regGet_mapSet r tool.name tool
  · unfold register at hok1
    split at hok1
    · exact Except.noConfusion hok1
    · injection hok1 with hok1
      subst hok1
      unfold register at hok2
      split at hok2
      · exact Except.noConfusion hok2
      · injection hok2 with hok2
        subst hok2
        have hmem : t'.name ∈ regNames (mapSet r tool.name tool) := by
          rw [hdn]
          exact mem_regNames_mapSet r tool.name tool
        constructor
        · rw [← hdn]
          exact regGet_mapSet (mapSet r t'.name tool) t'.name t'
        · exact regNames_mapSet_of_mem (mapSet r tool.name tool) t'.name t' hmem
  · unfold register at hok
    split at hok
    · exact Except.noConfusion hok
    · injection hok with hok
      subst hok
      unfold mapSet
      rw [if_neg (fun hany => hnew ((regAny_name_iff r tool.name).mp hany))]
      simp [regList]
  · have hok' : registerAll [] defaultTools = .ok rr := hok
    exact ⟨registerAll_nodup defaultTools [] rr (by simp [regNames]) hok', rfl⟩

/-- C6 witness: the amended registry contract applied to concrete
    registrations: an empty name and an absent `execute` are rejected, a
    duplicate registration overwrites, an unregistered name yields the
    sentinel, and resetting yields duplicate-free names. -/
theorem c6_witness :
    (∃ msg, register [] { name := "", execute := .func 1, description := "d" } = .error msg)
    ∧ (∃ msg, register [] { name := "tool_a", execute := .undef, description := "d" } = .error msg)
    ∧ (∀ r', register [("tool_a", { name := "tool_a", execute := .func 1, description := "a" })]
          { name := "tool_a", execute := .func 2, description := "b" } = .ok r' →
        regGet r' "tool_a" = some { name := "tool_a", execute := .func 2, description := "b" })
    ∧ regGet [] "no_such_tool" = none
    ∧ (∀ rr, regReset ([] : Registry) = .ok rr → (regNames rr).Nodup) := by
  obtain ⟨h1, -, -, -, -, -, -, -, -⟩ := c6_registry_contract []
    { name := "", execute := .func 1, description := "d" }
    { name := "", execute := .func 1, description := "d" } "no_such_tool"
  obtain ⟨-, h2, -, -, -, -, -, -, -⟩ := c6_registry_contract []
    { name := "tool_a", execute := .undef, description := "d" }
    { name := "tool_a", execute := .undef, description := "d" } "no_such_tool"
  obtain ⟨-, -, -, h4, -, -, -, -, -⟩ := c6_registry_contract
    [("tool_a", { name := "tool_a", execute := .func 1, description := "a" })]
    { name := "tool_a", execute := .func 2, description := "b" }
    { name := "tool_a", execute := .func 2, description := "b" } "no_such_tool"
  obtain ⟨-, -, -, -, -, h6, -, -, h9⟩ := c6_registry_contract ([] : Registry)
    { name := "x", execute := .func 1, description := "" }
    { name := "x", execute := .func 1, description := "" } "no_such_tool"
  exact ⟨h1 rfl, h2 rfl, h4, h6 (by simp [regNames]), fun rr hok => (h9 rr hok).1⟩

end TerminalSpec
